import Mathlib

/-!
Verification development for the waterline-criteria in-memory query engine
(filter / sort / limit / select over dynamically typed record tuples).

The JavaScript sources are embedded shallowly:
* JS runtime values become the inductive type `JSVal` (JS numbers are
  restricted to integers; every claim under study involves only integral
  numbers, so no floating-point behaviour is exercised),
* tuples become association lists from attribute names to `JSVal`,
* fallible evaluation (JS `throw`) becomes `Except String`,
* `Date` values are epoch milliseconds (`Int`), with the proleptic-Gregorian
  civil-calendar conversions used to model `Date#toISOString` and ISO parsing.
-/

namespace WC

mutual

/-- A JavaScript runtime value, as stored in tuples and criteria.
`vnum` models a JS number (restricted to integers), `vdate` a `Date`
by its epoch-millisecond value, `vobj`/`varr` plain objects and arrays
(represented through the mutual list types `JSFields` / `JSElems`). -/
inductive JSVal where
  | vundefined : JSVal
  | vnull : JSVal
  | vbool (b : Bool) : JSVal
  | vnum (n : Int) : JSVal
  | vstr (s : String) : JSVal
  | vdate (ms : Int) : JSVal
  | vobj (fields : JSFields) : JSVal
  | varr (elems : JSElems) : JSVal
  deriving DecidableEq, Repr

/-- The own enumerable string-keyed fields of a plain JS object, in order. -/
inductive JSFields where
  | nil : JSFields
  | cons (k : String) (v : JSVal) (rest : JSFields) : JSFields
  deriving DecidableEq, Repr

/-- The elements of a JS array, in order. -/
inductive JSElems where
  | nil : JSElems
  | cons (v : JSVal) (rest : JSElems) : JSElems
  deriving DecidableEq, Repr

end

/-- JS falsiness for the values of `JSVal` (`undefined`, `null`, `false`,
`0`, `""` are falsy; objects, arrays and dates are always truthy). -/
def jsFalsy : JSVal → Bool
  | JSVal.vundefined => true
  | JSVal.vnull => true
  | JSVal.vbool b => !b
  | JSVal.vnum n => n == 0
  | JSVal.vstr s => s.isEmpty
  | _ => false

/-- A tuple (one record): an association list from attribute name to value.
A key that is absent and a key stored with value `undefined` are distinct
states, mirroring JS own-property semantics. -/
abbrev Tuple := List (String × JSVal)

/-- `model[key]`: the stored value, or `undefined` when the key is absent. -/
def tupleGet (t : Tuple) (k : String) : JSVal :=
  match t with
  | [] => JSVal.vundefined
  | (k1, v) :: rest => if k1 == k then v else tupleGet rest k

/-- `model.hasOwnProperty(key)` (the `hasOwnProperty` helper of the source). -/
def hasKey (t : Tuple) (k : String) : Bool :=
  match t with
  | [] => false
  | (k1, _) :: rest => k1 == k || hasKey rest k

/-- Schema hint: attribute name to declared type string
(models `schema[key].type`; only the type `date` is special-cased). -/
abbrev Schema := List (String × String)

/-- `schema && schema[key] && schema[key].type`, as an optional type name. -/
def schemaType (s : Schema) (k : String) : Option String :=
  match s with
  | [] => none
  | (k1, ty) :: rest => if k1 == k then some ty else schemaType rest k

/-! ### Civil-calendar arithmetic for `Date`

Days/civil conversions use the standard era-based algorithms over the
proleptic Gregorian calendar, so that `Date#toISOString` and the parsing
done by `new Date(isoString)` can be computed. -/

/-- Days since the Unix epoch of the civil date `y-m-d` (proleptic Gregorian). -/
def daysFromCivil (y m d : Int) : Int :=
  let y1 := y - (if m <= 2 then 1 else 0)
  let era := Int.fdiv y1 400
  let yoe := y1 - era * 400
  let mp := if m > 2 then m - 3 else m + 9
  let doy := Int.fdiv (153 * mp + 2) 5 + d - 1
  let doe := yoe * 365 + Int.fdiv yoe 4 - Int.fdiv yoe 100 + doy
  era * 146097 + doe - 719468

/-- Civil date `(y, m, d)` of a day count since the Unix epoch. -/
def civilFromDays (z0 : Int) : Int × Int × Int :=
  let z := z0 + 719468
  let era := Int.fdiv z 146097
  let doe := z - era * 146097
  let yoe := Int.fdiv (doe - Int.fdiv doe 1460 + Int.fdiv doe 36524 - Int.fdiv doe 146096) 365
  let y := yoe + era * 400
  let doy := doe - (365 * yoe + Int.fdiv yoe 4 - Int.fdiv yoe 100)
  let mp := Int.fdiv (5 * doy + 2) 153
  let d := doy - Int.fdiv (153 * mp + 2) 5 + 1
  let m := if mp < 10 then mp + 3 else mp - 9
  (y + (if m <= 2 then 1 else 0), m, d)

/-- Left-pad the decimal form of a nonnegative integer to `w` digits. -/
def padNum (w : Nat) (n : Int) : String :=
  let s := toString n.toNat
  let pad := w - s.length
  String.mk (List.replicate pad (Char.ofNat 48)) ++ s

/-- `Date#toISOString`: canonical `YYYY-MM-DDTHH:MM:SS.mmmZ` rendering of an
epoch-millisecond value (years 0-9999; all dates in this development fit). -/
def toISOString (ms : Int) : String :=
  let day := Int.fdiv ms 86400000
  let msod := ms - day * 86400000
  let h := Int.fdiv msod 3600000
  let mi := Int.fdiv (msod - h * 3600000) 60000
  let sec := Int.fdiv (msod - h * 3600000 - mi * 60000) 1000
  let milli := msod - h * 3600000 - mi * 60000 - sec * 1000
  let c := civilFromDays day
  padNum 4 c.1 ++ "-" ++ padNum 2 c.2.1 ++ "-" ++ padNum 2 c.2.2 ++ "T" ++
    padNum 2 h ++ ":" ++ padNum 2 mi ++ ":" ++ padNum 2 sec ++ "." ++ padNum 3 milli ++ "Z"

/-- Decimal digit value of a character, if it is a digit. -/
def digitVal (c : Char) : Option Nat :=
  if c.toNat >= 48 && c.toNat <= 57 then some (c.toNat - 48) else none

/-- Read exactly `n` decimal digits from the front of a character list. -/
def readDigits : Nat → List Char → Option (Nat × List Char)
  | 0, cs => some (0, cs)
  | _ + 1, [] => none
  | n + 1, c :: cs => do
      let d ← digitVal c
      let (r, rest) ← readDigits n cs
      pure (d * 10 ^ n + r, rest)

/-- Expect a literal character at the front of a character list. -/
def expectChar (c : Char) : List Char → Option (List Char)
  | [] => none
  | c1 :: cs => if c1 == c then some cs else none

/-- Lower-case a string character by character (JS `toLowerCase` for the
ASCII data exercised here). -/
def strToLower (s : String) : String :=
  String.mk (s.toList.map Char.toLower)

/-- Drop leading whitespace characters. -/
def dropWs : List Char → List Char
  | [] => []
  | c :: cs => if c.isWhitespace then dropWs cs else c :: cs

/-- JS string trimming (leading and trailing whitespace). -/
def trimWs (s : String) : String :=
  String.mk ((dropWs (dropWs s.toList.reverse).reverse))

/-- Lexicographic comparison of character lists (JS string `<` compares
code units; identical to code-point order on the data exercised here). -/
def charListLt : List Char → List Char → Bool
  | [], [] => false
  | [], _ :: _ => true
  | _ :: _, [] => false
  | a :: as, b :: bs => a < b || (a == b && charListLt as bs)

/-- JS string `<`. -/
def strLt (s t : String) : Bool :=
  charListLt s.toList t.toList

/-- Accumulate the decimal value of a run of digits; `none` on a non-digit. -/
def digitsAcc (acc : Nat) : List Char → Option Nat
  | [] => some acc
  | c :: cs =>
    match digitVal c with
    | some d => digitsAcc (acc * 10 + d) cs
    | none => none

/-- JS `Number(string)` restricted to integral forms: whitespace is trimmed,
the empty string converts to `0`, an optional sign followed by decimal digits
converts to that integer, and anything else is `NaN` (`none`).  Non-integral
numeric literals, hex and `Infinity` are outside this model; no claim under
study exercises them. -/
def parseNumber (s : String) : Option Int :=
  match (trimWs s).toList with
  | [] => some 0
  | '+' :: cs =>
    match cs with
    | [] => none
    | _ => (digitsAcc 0 cs).map Int.ofNat
  | '-' :: cs =>
    match cs with
    | [] => none
    | _ => (digitsAcc 0 cs).map (fun n => -(Int.ofNat n : Int))
  | cs => (digitsAcc 0 cs).map Int.ofNat

mutual

/-- JS natural string conversion (`String(x)` / `x.toString()`): numbers render
in decimal, arrays join their elements with commas, plain objects render as
`[object Object]`.  `Date#toString` is locale-dependent in JS; the comparator
always converts a date before stringifying it, so the rendering chosen here
(the ISO form) is never observed by the functions under study. -/
def jsToString : JSVal → String
  | JSVal.vundefined => "undefined"
  | JSVal.vnull => "null"
  | JSVal.vbool b => if b then "true" else "false"
  | JSVal.vnum n => toString n
  | JSVal.vstr s => s
  | JSVal.vdate ms => toISOString ms
  | JSVal.vobj _ => "[object Object]"
  | JSVal.varr es => jsArrJoin es

/-- `Array#toString` = `join(",")`; within a join, `null` and `undefined`
elements render as the empty string. -/
def jsArrJoin : JSElems → String
  | JSElems.nil => ""
  | JSElems.cons JSVal.vnull JSElems.nil => ""
  | JSElems.cons JSVal.vundefined JSElems.nil => ""
  | JSElems.cons v JSElems.nil => jsToString v
  | JSElems.cons JSVal.vnull rest => "," ++ jsArrJoin rest
  | JSElems.cons JSVal.vundefined rest => "," ++ jsArrJoin rest
  | JSElems.cons v rest => jsToString v ++ "," ++ jsArrJoin rest

end

/-- JS `Number(value)` (`none` = `NaN`): `null` is `0`, `undefined` is `NaN`,
booleans are `0`/`1`, dates are their epoch milliseconds, strings parse per
`parseNumber`, arrays convert through their string form, plain objects are
`NaN` (their string form `[object Object]` is not numeric). -/
def jsToNumber : JSVal → Option Int
  | JSVal.vnum n => some n
  | JSVal.vnull => some 0
  | JSVal.vundefined => none
  | JSVal.vbool b => some (if b then 1 else 0)
  | JSVal.vstr s => parseNumber s
  | JSVal.vdate ms => some ms
  | JSVal.vobj _ => none
  | JSVal.varr es => parseNumber (jsArrJoin es)

/-- Source `isNumbery` (part_000 lines 304-308): dates are excluded, then the
test is literally `Math.pow(Number(value), 2) > 0`.  Note this is false at
`0` even though `0` is a finite number, because `0 * 0 > 0` fails. -/
def isNumbery (v : JSVal) : Bool :=
  match v with
  | JSVal.vdate _ => false
  | v =>
    match jsToNumber v with
    | none => false
    | some n => n * n > 0

/-- A value as prepared by `normalizeComparison`: after normalization each
side is either a JS number or a string. -/
inductive NormVal where
  | nnum (n : Int) : NormVal
  | nstr (s : String) : NormVal
  deriving DecidableEq, Repr

/-- Read a whole fixed-shape pattern: each entry is either a digit-group
width or a literal character; the whole input must be consumed.  Returns the
digit-group values in order. -/
def readPattern : List (Nat ⊕ Char) → List Char → Option (List Nat)
  | [], [] => some []
  | [], _ :: _ => none
  | Sum.inl n :: sp, cs =>
    (readDigits n cs).bind fun p => (readPattern sp p.2).map fun ns => p.1 :: ns
  | Sum.inr c :: sp, cs =>
    (expectChar c cs).bind fun r => readPattern sp r

/-- Modelled from the spec: the shared ISO-8601 date pattern constant
`X_ISO_DATE` (required from `X_ISO_DATE.constant`, a module that is not among
the provided sources).  Modelled as the canonical `YYYY-MM-DDTHH:MM:SS.mmmZ`
form produced by `Date#toISOString`, with field-range checks; the result is
the epoch-millisecond value (`new Date(s).getTime()`) so that pattern match
and re-parse are computed together. -/
def parseCanonicalISO (s : String) : Option Int :=
  match readPattern
      [Sum.inl 4, Sum.inr '-', Sum.inl 2, Sum.inr '-', Sum.inl 2, Sum.inr 'T',
       Sum.inl 2, Sum.inr ':', Sum.inl 2, Sum.inr ':', Sum.inl 2, Sum.inr '.',
       Sum.inl 3, Sum.inr 'Z'] s.toList with
  | some [y, mo, d, h, mi, sec, ms] =>
    if 1 <= mo && mo <= 12 && 1 <= d && d <= 31 && h <= 23 && mi <= 59 && sec <= 59 then
      some (((((daysFromCivil y mo d) * 24 + h) * 60 + mi) * 60 + sec) * 1000 + ms)
    else none
  | _ => none

/-- Date-only form `YYYY-MM-DD`, parsed by `new Date(...)` as UTC midnight. -/
def parseDateOnly (s : String) : Option Int :=
  match readPattern [Sum.inl 4, Sum.inr '-', Sum.inl 2, Sum.inr '-', Sum.inl 2] s.toList with
  | some [y, mo, d] =>
    if 1 <= mo && mo <= 12 && 1 <= d && d <= 31 then
      some (daysFromCivil y mo d * 86400000)
    else none
  | _ => none

/-- `new Date(string).getTime()` for the string formats this model supports
(canonical ISO and date-only); other JS-parseable formats are out of scope
for the claims under study and yield `NaN` (`none`). -/
def jsDateParse (s : String) : Option Int :=
  match parseCanonicalISO s with
  | some t => some t
  | none => parseDateOnly s

/-- `new Date(value).getTime()` (`none` = Invalid Date): numbers and dates map
to their millisecond value, `null` to `0`, booleans to `0`/`1`, `undefined` to
Invalid Date, strings are parsed, and objects/arrays go through their string
form. -/
def jsNewDate : JSVal → Option Int
  | JSVal.vnum n => some n
  | JSVal.vdate t => some t
  | JSVal.vnull => some 0
  | JSVal.vbool b => some (if b then 1 else 0)
  | JSVal.vundefined => none
  | JSVal.vstr s => jsDateParse s
  | JSVal.vobj _ => none
  | JSVal.varr es => jsDateParse (jsArrJoin es)

/-- Normalization step 1: `undefined` and `null` become the empty string. -/
def normNullish : JSVal → JSVal
  | JSVal.vundefined => JSVal.vstr ""
  | JSVal.vnull => JSVal.vstr ""
  | v => v

/-- Normalization step 2: two strings are both lower-cased. -/
def normLowerPair : JSVal × JSVal → JSVal × JSVal
  | (JSVal.vstr s, JSVal.vstr t) => (JSVal.vstr (strToLower s), JSVal.vstr (strToLower t))
  | p => p

/-- Normalization step 4: a lone date converts to its ISO string. -/
def normDateToStr : JSVal → JSVal
  | JSVal.vdate x => JSVal.vstr (toISOString x)
  | v => v

/-- Normalization step 5: stringify everything except numbers. -/
def normStringify : JSVal → NormVal
  | JSVal.vnum n => NormVal.nnum n
  | v => NormVal.nstr (jsToString v)

/-- Normalization step 6: if both strings match `X_ISO_DATE`, re-parse both
as dates and compare by epoch-millisecond value. -/
def normIsoRecheck : NormVal × NormVal → NormVal × NormVal
  | (NormVal.nstr s, NormVal.nstr t) =>
    (match parseCanonicalISO s, parseCanonicalISO t with
     | some x, some y => (NormVal.nnum x, NormVal.nnum y)
     | _, _ => (NormVal.nstr s, NormVal.nstr t))
  | p => p

/-- Source `normalizeComparison` (part_000 lines 235-279), step for step:
1. `undefined`/`null` become the empty string; 2. two strings are both
lower-cased; 3. two dates compare by epoch milliseconds; 4. a lone date is
converted to its ISO string; 5. any non-number is stringified; 6. if both
resulting strings match `X_ISO_DATE`, both are re-parsed to dates and the
epoch-millisecond values are returned. -/
def normalizeComparison (a0 b0 : JSVal) : NormVal × NormVal :=
  let p := normLowerPair (normNullish a0, normNullish b0)
  match p with
  | (JSVal.vdate x, JSVal.vdate y) => (NormVal.nnum x, NormVal.nnum y)
  | (a2, b2) =>
    normIsoRecheck (normStringify (normDateToStr a2), normStringify (normDateToStr b2))

/-- JS loose equality `==` on normalized values: number against string
converts the string with `Number` (`NaN` compares unequal). -/
def looseEq (x y : NormVal) : Bool :=
  match x, y with
  | NormVal.nnum a, NormVal.nnum b => a == b
  | NormVal.nstr s, NormVal.nstr t => s == t
  | NormVal.nnum a, NormVal.nstr t =>
    match parseNumber t with
    | some b => a == b
    | none => false
  | NormVal.nstr s, NormVal.nnum b =>
    match parseNumber s with
    | some a => a == b
    | none => false

/-- The numeric view of a normalized value (for JS relational operators). -/
def normToNum : NormVal → Option Int
  | NormVal.nnum n => some n
  | NormVal.nstr s => parseNumber s

/-- JS `<` on normalized values: two strings compare lexicographically,
otherwise both sides convert to numbers and `NaN` makes the result false. -/
def normLt (x y : NormVal) : Bool :=
  match x, y with
  | NormVal.nstr s, NormVal.nstr t => strLt s t
  | x, y =>
    match normToNum x, normToNum y with
    | some a, some b => a < b
    | _, _ => false

/-- JS `<=` on normalized values (false whenever a numeric side is `NaN`). -/
def normLe (x y : NormVal) : Bool :=
  match x, y with
  | NormVal.nstr s, NormVal.nstr t => !(strLt t s)
  | x, y =>
    match normToNum x, normToNum y with
    | some a, some b => a <= b
    | _, _ => false

/-- The comparison operators of the source `compare` table. -/
inductive CmpOp where
  | eq | ne | lt | le | gt | ge
  deriving DecidableEq, Repr

/-- Source `compare` (part_000 lines 197-232): normalize the pair, then apply
the loose JS operator (`==`, `!=`, `<`, `<=`, `>`, `>=`). -/
def compareOp (op : CmpOp) (a b : JSVal) : Bool :=
  let p := normalizeComparison a b
  match op with
  | CmpOp.eq => looseEq p.1 p.2
  | CmpOp.ne => !(looseEq p.1 p.2)
  | CmpOp.lt => normLt p.1 p.2
  | CmpOp.gt => normLt p.2 p.1
  | CmpOp.le => normLe p.1 p.2
  | CmpOp.ge => normLe p.2 p.1

/-! ### Pattern matcher (`sqlLikeMatch` and friends, part_000 lines 349-421) -/

/-- The characters escaped by the source `escapeRegExp`
(`/[\-\[\]\/\{\}\(\)\*\+\?\.\\\^\$\|]/g`).  Note `%` is not among them. -/
def regexMetaChars : List Char :=
  ['-', '[', ']', '/', Char.ofNat 123, Char.ofNat 125, '(', ')', '*', '+', '?', '.', '\\', '^', '$', '|']

/-- Source `escapeRegExp`: prefix every regex metacharacter with a backslash. -/
def escChars : List Char → List Char
  | [] => []
  | c :: cs => if regexMetaChars.contains c then '\\' :: c :: escChars cs else c :: escChars cs

/-- If `pat` is a leading run of `cs`, return the remainder. -/
def dropPre : List Char → List Char → Option (List Char)
  | [], cs => some cs
  | _ :: _, [] => none
  | p :: ps, c :: cs => if c == p then dropPre ps cs else none

/-- Leftmost, non-overlapping global replacement (JS `String#replace` with a
`/g` literal pattern), fuelled by the input length so that it stays
structurally recursive. -/
def replaceFuel (pat rep : List Char) : Nat → List Char → List Char
  | 0, cs => cs
  | _ + 1, [] => []
  | f + 1, c :: cs =>
    match pat with
    | [] => c :: cs
    | _ =>
      match dropPre pat (c :: cs) with
      | some rest => rep ++ replaceFuel pat rep f rest
      | none => c :: replaceFuel pat rep f cs

/-- JS `s.replace(/pat/g, rep)` for a literal pattern. -/
def replaceAllStr (s pat rep : String) : String :=
  String.mk (replaceFuel pat.toList rep.toList s.toList.length s.toList)

/-- A token of the regular expressions produced by the LIKE translation:
an (escaped or plain) literal character, a lone `.`, or the wildcard `.*`. -/
inductive RTok where
  | lit (c : Char) : RTok
  | dot : RTok
  | anyStar : RTok
  deriving DecidableEq, Repr

/-- Tokenize the body of a translated pattern (`\c` is a literal, `.*` the
wildcard, `.` any single character, anything else a literal character). -/
def lexRegex : List Char → List RTok
  | [] => []
  | '\\' :: c :: cs => RTok.lit c :: lexRegex cs
  | ['\\'] => []
  | '.' :: '*' :: cs => RTok.anyStar :: lexRegex cs
  | '.' :: cs => RTok.dot :: lexRegex cs
  | c :: cs => RTok.lit c :: lexRegex cs

/-- Anchored, case-insensitive matching of a token list against a character
list (ECMAScript semantics for the `^...$`-anchored, `i`-flagged expressions
produced by the translation; `.` does not match line terminators).  Fuelled
so that it stays structurally recursive; the fuel used by `sqlLikeMatch`
dominates the longest possible backtracking search. -/
def rexMatch : Nat → List RTok → List Char → Bool
  | 0, _, _ => false
  | _ + 1, [], [] => true
  | _ + 1, [], _ :: _ => false
  | _ + 1, RTok.lit _ :: _, [] => false
  | f + 1, RTok.lit c :: ts, d :: ds => (c.toLower == d.toLower) && rexMatch f ts ds
  | _ + 1, RTok.dot :: _, [] => false
  | f + 1, RTok.dot :: ts, d :: ds => (d != Char.ofNat 10 && d != Char.ofNat 13) && rexMatch f ts ds
  | f + 1, RTok.anyStar :: ts, ds =>
    rexMatch f ts ds ||
      (match ds with
       | [] => false
       | d :: ds2 => (d != Char.ofNat 10 && d != Char.ofNat 13) && rexMatch f (RTok.anyStar :: ts) ds2)

/-- Source `sqlLikeMatch` (part_000 lines 368-416).  A string pattern is
translated by (1) collapsing `%%%` to `%`, (2) escaping regex metacharacters,
(3) replacing each `%` with `.*` (the source regex `/([^%]*)%([^%]*)/g` with
replacement `$1.*$2` rewrites every `%` this way), then anchoring `^...$`
with the case-insensitive flag.  Number values match via their decimal
string, booleans via `true`/`false`, and all other non-strings never match.
A pattern that is neither a string nor a regular expression throws; native
regular-expression patterns are outside this model (no claim uses them). -/
def sqlLikeMatch (value : JSVal) (matchString : JSVal) : Except String Bool :=
  match matchString with
  | JSVal.vstr ms0 =>
    let ms1 := replaceAllStr ms0 ("%%%") ("%")
    let ms2 := String.mk (escChars ms1.toList)
    let ms3 := replaceAllStr ms2 ("%") (".*")
    let toks := lexRegex ms3.toList
    let valStr : Option String :=
      match value with
      | JSVal.vnum n => some (toString n)
      | JSVal.vbool b => some (if b then "true" else "false")
      | JSVal.vstr s => some s
      | _ => none
    match valStr with
    | none => Except.ok false
    | some s => Except.ok (rexMatch ((toks.length + 1) * (s.toList.length + 1)) toks s.toList)
  | other =>
    Except.error ("Unexpected match string: " ++ jsToString other ++ " Please use a regexp or string.")

/-- Source `checkStartsWith`: LIKE-match against `` `${matchString}%` ``. -/
def checkStartsWith (value matchString : JSVal) : Except String Bool :=
  sqlLikeMatch value (JSVal.vstr (jsToString matchString ++ "%"))

/-- Source `checkEndsWith`: LIKE-match against `` `%${matchString}` ``. -/
def checkEndsWith (value matchString : JSVal) : Except String Bool :=
  sqlLikeMatch value (JSVal.vstr ("%" ++ jsToString matchString))

/-- Source `checkContains`: LIKE-match against `` `%${matchString}%` ``. -/
def checkContains (value matchString : JSVal) : Except String Bool :=
  sqlLikeMatch value (JSVal.vstr ("%" ++ jsToString matchString ++ "%"))

/-- Source `checkLike`: LIKE-match against the raw criterion. -/
def checkLike (value matchString : JSVal) : Except String Bool :=
  sqlLikeMatch value matchString

/-! ### Literal matching (`matchLiteral`, part_000 lines 311-347) -/

/-- `compare['=']` wrapped for use as a `matchLiteral` match function. -/
def eqFn (a b : JSVal) : Except String Bool := Except.ok (compareOp CmpOp.eq a b)

/-- `compare['!']`. -/
def neFn (a b : JSVal) : Except String Bool := Except.ok (compareOp CmpOp.ne a b)

/-- `compare['>']`. -/
def gtFn (a b : JSVal) : Except String Bool := Except.ok (compareOp CmpOp.gt a b)

/-- `compare['>=']`. -/
def geFn (a b : JSVal) : Except String Bool := Except.ok (compareOp CmpOp.ge a b)

/-- `compare['<']`. -/
def ltFn (a b : JSVal) : Except String Bool := Except.ok (compareOp CmpOp.lt a b)

/-- `compare['<=']`. -/
def leFn (a b : JSVal) : Except String Bool := Except.ok (compareOp CmpOp.le a b)

/-- Source `matchLiteral`: clone the model's value (pure here, so the clone
is the value itself); if the schema declares the attribute as a `date`, both
sides are re-parsed with `new Date(...)` and rendered with `toISOString`
(an invalid date throws `Invalid time value`, as `toISOString` does in JS);
if both sides are `isNumbery`, both are cast with `Number`; then the
attribute must exist on the model and the criterion must not be `undefined`
(else no match), and finally the match function decides. -/
def matchLiteral (model : Tuple) (key : String) (criterion : JSVal)
    (matchFn : JSVal → JSVal → Except String Bool) (schema : Schema) : Except String Bool :=
  let val := tupleGet model key
  let dateCoerced : Except String (JSVal × JSVal) :=
    if schemaType schema key == some ("date") then
      match jsNewDate val with
      | none => Except.error ("Invalid time value")
      | some tv =>
        match jsNewDate criterion with
        | none => Except.error ("Invalid time value")
        | some tc => Except.ok (JSVal.vstr (toISOString tv), JSVal.vstr (toISOString tc))
    else Except.ok (val, criterion)
  match dateCoerced with
  | Except.error e => Except.error e
  | Except.ok (v1, c1) =>
    let p := if isNumbery c1 && isNumbery v1 then
        (JSVal.vnum ((jsToNumber v1).getD 0), JSVal.vnum ((jsToNumber c1).getD 0))
      else (v1, c1)
    if !(hasKey model key) then Except.ok false
    else if p.2 == JSVal.vundefined then Except.ok false
    else
      match matchFn p.1 p.2 with
      | Except.error e => Except.error e
      | Except.ok m => if m then Except.ok true else Except.ok false

/-- Decidable equality for `Except` results (used to state and decide the
claims below). -/
instance {e a : Type} [DecidableEq e] [DecidableEq a] : DecidableEq (Except e a) := fun x y =>
  match x, y with
  | Except.ok v, Except.ok w =>
    if h : v = w then isTrue (by rw [h]) else isFalse (fun hh => h (Except.ok.inj hh))
  | Except.error v, Except.error w =>
    if h : v = w then isTrue (by rw [h]) else isFalse (fun hh => h (Except.error.inj hh))
  | Except.ok _, Except.error _ => isFalse (fun hh => Except.noConfusion hh)
  | Except.error _, Except.ok _ => isFalse (fun hh => Except.noConfusion hh)

/-! ### Criteria (WHERE clauses) and the recursive evaluator
(part_000 lines 26-194) -/

mutual

/-- A criterion value as it appears in a WHERE clause: a primitive literal,
an array (an IN list, a NOT-IN list, or an `or`/`and` sequence), or a nested
dictionary (sub-attribute modifiers, or a nested criteria mapping). -/
inductive QVal where
  | prim (v : JSVal) : QVal
  | arr (elems : QArr) : QVal
  | dict (entries : QDict) : QVal
  deriving DecidableEq, Repr

/-- The elements of an array-shaped criterion, in order. -/
inductive QArr where
  | nil : QArr
  | cons (v : QVal) (rest : QArr) : QArr
  deriving DecidableEq, Repr

/-- The entries of a dictionary-shaped criterion, in insertion order. -/
inductive QDict where
  | nil : QDict
  | cons (k : String) (v : QVal) (rest : QDict) : QDict
  deriving DecidableEq, Repr

end

mutual

/-- The JS value denoted by a criterion node (identity on primitives). -/
def qvalToJSVal : QVal → JSVal
  | QVal.prim v => v
  | QVal.arr vs => JSVal.varr (qarrToElems vs)
  | QVal.dict es => JSVal.vobj (qdictToFields es)

/-- Elementwise JS view of an array criterion. -/
def qarrToElems : QArr → JSElems
  | QArr.nil => JSElems.nil
  | QArr.cons v rest => JSElems.cons (qvalToJSVal v) (qarrToElems rest)

/-- Entrywise JS view of a dictionary criterion. -/
def qdictToFields : QDict → JSFields
  | QDict.nil => JSFields.nil
  | QDict.cons k v rest => JSFields.cons k (qvalToJSVal v) (qdictToFields rest)

end

/-- The elements of an array criterion as a list (for statements about it). -/
def qarrToList : QArr → List QVal
  | QArr.nil => []
  | QArr.cons v rest => v :: qarrToList rest

/-- `hasOwnProperty` over a dictionary criterion. -/
def qdictHasKey : QDict → String → Bool
  | QDict.nil, _ => false
  | QDict.cons k1 _ rest, k => k1 == k || qdictHasKey rest k

/-- The fixed sub-attribute keys recognized by `validSubAttrCriteria`
(part_000 lines 288-290). -/
def validAttrKeys : List String :=
  ["equals", "not", "greaterThan", "lessThan", "greaterThanOrEqual", "lessThanOrEqual",
   "<", "<=", "!", ">", ">=", "startsWith", "endsWith", "contains", "like"]

/-- Source `validSubAttrCriteria` (part_000 lines 282-301): an object is a
sub-attribute criteria dictionary iff it owns at least one of the fixed
modifier keys.  Arrays own none of them, so only dictionaries qualify. -/
def validSubAttrCriteria (c : QVal) : Bool :=
  match c with
  | QVal.dict es => validAttrKeys.any (fun a => qdictHasKey es a)
  | _ => false

/-- `some(criterion, val => compare['='](x, val))` — the IN / NOT-IN scan. -/
def qarrAnyEq (x : JSVal) : QArr → Bool
  | QArr.nil => false
  | QArr.cons v rest => compareOp CmpOp.eq x (qvalToJSVal v) || qarrAnyEq x rest

/-- The error raised when lodash `every`/`each` feeds a numeric index to
`matchItem`, which then calls `key.toLowerCase()` on a number (the source
assumes criteria dictionaries and reaches this only on malformed input). -/
def typeErrMsg : String := "TypeError: key.toLowerCase is not a function"

/-- Entries of a dictionary criterion as a list. -/
def qLikeDict : QDict → List (String × QVal)
  | QDict.nil => []
  | QDict.cons k v rest => (k, v) :: qLikeDict rest

/-- Array entries indexed by numeric strings. -/
def qLikeArr (i : Nat) : QArr → List (String × QVal)
  | QArr.nil => []
  | QArr.cons v rest => (toString i, v) :: qLikeArr (i + 1) rest

/-- String characters indexed by numeric strings. -/
def qLikeStr (i : Nat) : List Char → List (String × QVal)
  | [] => []
  | c :: cs => (toString i, QVal.prim (JSVal.vstr (String.mk [c]))) :: qLikeStr (i + 1) cs

/-- The key/pattern pairs iterated by `matchLike` (`for (const key in
criteria)`): a dictionary's own entries; an array's entries under their
numeric-string indices; a string's characters likewise. -/
def qLikePairs : QVal → List (String × QVal)
  | QVal.dict es => qLikeDict es
  | QVal.arr vs => qLikeArr 0 vs
  | QVal.prim (JSVal.vstr s) => qLikeStr 0 s.toList
  | QVal.prim _ => []

/-- Source `matchLike` (part_000 lines 90-98): every attribute's pattern must
LIKE-match; the first failure returns false, a thrown pattern error
propagates. -/
def matchLikePairs (model : Tuple) : List (String × QVal) → Except String Bool
  | [] => Except.ok true
  | (k, v) :: rest =>
    match checkLike (tupleGet model k) (qvalToJSVal v) with
    | Except.error e => Except.error e
    | Except.ok b => if b then matchLikePairs model rest else Except.ok false

/-- The keys accepted by `matchItem` in attribute-scoped mode (its `if`
chain, part_000 lines 112-156); any other key throws `Invalid query
syntax!`. -/
def scopedModifierKeys : List String :=
  ["equals", "=", "equal", "not", "!", "greaterThan", ">", "greaterThanOrEqual", ">=",
   "lessThan", "<", "lessThanOrEqual", "<=", "startsWith", "endsWith", "contains", "like"]

/-- The attribute-scoped arm of `matchItem` (part_000 lines 109-157): the
modifier key selects the comparator or string-search operator, `not`/`!`
with an array criterion is a NOT-IN scan, and any unrecognized key throws
`Invalid query syntax!`.  This arm never recurses. -/
def matchItemScoped (model : Tuple) (pk key : String) (criterion : QVal)
    (schema : Schema) : Except String Bool :=
  if key == "equals" || key == "=" || key == "equal" then
    matchLiteral model pk (qvalToJSVal criterion) eqFn schema
  else if key == "not" || key == "!" then
    match criterion with
    | QVal.arr vs => Except.ok (!(qarrAnyEq (tupleGet model pk) vs))
    | c => matchLiteral model pk (qvalToJSVal c) neFn schema
  else if key == "greaterThan" || key == ">" then
    matchLiteral model pk (qvalToJSVal criterion) gtFn schema
  else if key == "greaterThanOrEqual" || key == ">=" then
    matchLiteral model pk (qvalToJSVal criterion) geFn schema
  else if key == "lessThan" || key == "<" then
    matchLiteral model pk (qvalToJSVal criterion) ltFn schema
  else if key == "lessThanOrEqual" || key == "<=" then
    matchLiteral model pk (qvalToJSVal criterion) leFn schema
  else if key == "startsWith" then
    matchLiteral model pk (qvalToJSVal criterion) checkStartsWith schema
  else if key == "endsWith" then
    matchLiteral model pk (qvalToJSVal criterion) checkEndsWith schema
  else if key == "contains" then
    matchLiteral model pk (qvalToJSVal criterion) checkContains schema
  else if key == "like" then
    matchLiteral model pk (qvalToJSVal criterion) checkLike schema
  else Except.error ("Invalid query syntax!")

mutual

/-- Source `matchSet` (part_000 lines 47-60): a falsy criteria always
matches (the `criteria === {}` arm of the source guard never fires, and an
empty dictionary matches vacuously through `every`); a dictionary is an
implicit AND over its entries, short-circuiting on the first failure.
A non-empty array or string criteria would make lodash `every` feed numeric
keys to `matchItem`, where `key.toLowerCase()` throws; other non-collection
values iterate vacuously. -/
def matchSet (model : Tuple) (criteria : QVal) (parentKey : Option String)
    (schema : Schema) : Except String Bool :=
  match criteria with
  | QVal.prim v =>
    if jsFalsy v then Except.ok true
    else
      match v with
      | JSVal.vstr _ => Except.error typeErrMsg
      | _ => Except.ok true
  | QVal.arr vs =>
    match vs with
    | QArr.nil => Except.ok true
    | QArr.cons _ _ => Except.error typeErrMsg
  | QVal.dict es => matchEntries model es parentKey schema

/-- lodash `every` over a criteria dictionary's entries.  Each entry goes
through `matchItem`; its dispatch (the JS `if (parentKey)` truthiness test —
the empty string is falsy — selecting the attribute-scoped or the top-level
arm) is inlined here so that the recursion stays structural, and the
`matchItem` wrapper below restates it definitionally. -/
def matchEntries (model : Tuple) (es : QDict) (parentKey : Option String)
    (schema : Schema) : Except String Bool :=
  match es with
  | QDict.nil => Except.ok true
  | QDict.cons k v rest =>
    let r :=
      match parentKey with
      | some pk =>
        if pk == "" then matchItemTop model k v schema
        else matchItemScoped model pk k v schema
      | none => matchItemTop model k v schema
    match r with
    | Except.error e => Except.error e
    | Except.ok b => if b then matchEntries model rest parentKey schema else Except.ok false

/-- The top-level arm of `matchItem` (part_000 lines 159-193), taken when
the parent key is falsy: the key may be a combinator (`or`/`not`/`and`/
`like`, case-insensitively), an array criterion is an IN filter, a
dictionary owning a recognized modifier key recurses in attribute-scoped
mode (`matchSet(model, criterion, key)` — a dictionary is never falsy, so
that is exactly lodash `every` over its entries), and anything else is a
literal equality filter.  The `not` combinator is `matchNot` (part_000
lines 100-103), `!matchSet(...)` with the body of `matchSet` inlined on
the same criterion value. -/
def matchItemTop (model : Tuple) (key : String) (criterion : QVal)
    (schema : Schema) : Except String Bool :=
  if strToLower key == "or" then
    match criterion with
    | QVal.arr vs => matchOrVals model vs schema
    | QVal.dict es => matchOrPairs model es schema
    | QVal.prim v =>
      if jsFalsy v then Except.ok false
      else
        match v with
        | JSVal.vstr _ => Except.error typeErrMsg
        | _ => Except.ok false
  else if strToLower key == "not" then
    match criterion with
    | QVal.prim v =>
      if jsFalsy v then Except.ok false
      else
        match v with
        | JSVal.vstr _ => Except.error typeErrMsg
        | _ => Except.ok false
    | QVal.arr vs =>
      (match vs with
       | QArr.nil => Except.ok false
       | QArr.cons _ _ => Except.error typeErrMsg)
    | QVal.dict es =>
      match matchEntries model es none schema with
      | Except.error e => Except.error e
      | Except.ok b => Except.ok (!b)
  else if strToLower key == "and" then
    match criterion with
    | QVal.arr vs => matchAndVals model vs schema
    | QVal.dict es => matchAndPairs model es schema
    | QVal.prim v =>
      if jsFalsy v then Except.ok true
      else
        match v with
        | JSVal.vstr _ => Except.error typeErrMsg
        | _ => Except.ok true
  else if strToLower key == "like" then
    matchLikePairs model (qLikePairs criterion)
  else
    match criterion with
    | QVal.arr vs => Except.ok (qarrAnyEq (tupleGet model key) vs)
    | QVal.dict es =>
      if validSubAttrCriteria (QVal.dict es) then
        matchEntries model es (some key) schema
      else matchLiteral model key (qvalToJSVal (QVal.dict es)) eqFn schema
    | QVal.prim v => matchLiteral model key v eqFn schema

/-- Source `matchOr` (part_000 lines 62-75) over an array of disjuncts:
every disjunct is evaluated (no short-circuit on success, so a later thrown
error propagates), and the outcome is whether any matched. -/
def matchOrVals (model : Tuple) (vs : QArr) (schema : Schema) : Except String Bool :=
  match vs with
  | QArr.nil => Except.ok false
  | QArr.cons c rest =>
    match matchSet model c none schema with
    | Except.error e => Except.error e
    | Except.ok b =>
      match matchOrVals model rest schema with
      | Except.error e => Except.error e
      | Except.ok r => Except.ok (b || r)

/-- `matchOr` when the disjunct container is a dictionary (lodash `each`
iterates its values). -/
def matchOrPairs (model : Tuple) (es : QDict) (schema : Schema) : Except String Bool :=
  match es with
  | QDict.nil => Except.ok false
  | QDict.cons _ c rest =>
    match matchSet model c none schema with
    | Except.error e => Except.error e
    | Except.ok b =>
      match matchOrPairs model rest schema with
      | Except.error e => Except.error e
      | Except.ok r => Except.ok (b || r)

/-- Source `matchAnd` (part_000 lines 77-88) over an array of conjuncts:
every conjunct is evaluated, and the outcome is whether all matched. -/
def matchAndVals (model : Tuple) (vs : QArr) (schema : Schema) : Except String Bool :=
  match vs with
  | QArr.nil => Except.ok true
  | QArr.cons c rest =>
    match matchSet model c none schema with
    | Except.error e => Except.error e
    | Except.ok b =>
      match matchAndVals model rest schema with
      | Except.error e => Except.error e
      | Except.ok r => Except.ok (b && r)

/-- `matchAnd` when the conjunct container is a dictionary. -/
def matchAndPairs (model : Tuple) (es : QDict) (schema : Schema) : Except String Bool :=
  match es with
  | QDict.nil => Except.ok true
  | QDict.cons _ c rest =>
    match matchSet model c none schema with
    | Except.error e => Except.error e
    | Except.ok b =>
      match matchAndPairs model rest schema with
      | Except.error e => Except.error e
      | Except.ok r => Except.ok (b && r)
end

/-- Source `matchItem` (part_000 lines 105-194).  The dispatch is the JS
truthiness test `if (parentKey)`: `parentKey` is either `undefined`
(`none`) or the attribute name string, and the *empty string is falsy*, so
only a non-empty parent key selects the attribute-scoped arm
(`matchItemScoped`); an absent or empty parent key takes the top-level arm
(`matchItemTop`).  This wrapper is definitionally the same dispatch that
`matchEntries` performs inline. -/
def matchItem (model : Tuple) (key : String) (criterion : QVal)
    (parentKey : Option String) (schema : Schema) : Except String Bool :=
  match parentKey with
  | some pk =>
    if pk == "" then matchItemTop model key criterion schema
    else matchItemScoped model pk key criterion schema
  | none => matchItemTop model key criterion schema

/-! ### Sort stage (part_001 lines 22-132) -/

/-- The default `when` rank function (`rankSpecialCase`, part_001 lines
47-58): an attribute ranks unless its value is `undefined` (including
absent) or `null`. -/
def rankSpecialCase (record : Tuple) (attrName : String) : Bool :=
  match tupleGet record attrName with
  | JSVal.vundefined => false
  | JSVal.vnull => false
  | _ => true

/-- The primitive a value presents to a raw JS relational operator
(`ToPrimitive` with number hint): strings stay strings, dates yield their
epoch milliseconds, objects and arrays yield their string forms. -/
def relPrim : JSVal → String ⊕ Option Int
  | JSVal.vstr s => Sum.inl s
  | JSVal.vnum n => Sum.inr (some n)
  | JSVal.vbool b => Sum.inr (some (if b then 1 else 0))
  | JSVal.vnull => Sum.inr (some 0)
  | JSVal.vundefined => Sum.inr none
  | JSVal.vdate t => Sum.inr (some t)
  | JSVal.vobj _ => Sum.inl ("[object Object]")
  | JSVal.varr es => Sum.inl (jsArrJoin es)

/-- Numeric view of a relational primitive (`none` = `NaN`). -/
def relNum : String ⊕ Option Int → Option Int
  | Sum.inl s => parseNumber s
  | Sum.inr o => o

/-- Raw JS `<` on two values (as used by the sort comparator's general
case): two strings compare lexicographically, otherwise numerically with
`NaN` making the comparison false. -/
def jsLt (a b : JSVal) : Bool :=
  match relPrim a, relPrim b with
  | Sum.inl s, Sum.inl t => strLt s t
  | x, y =>
    match relNum x, relNum y with
    | some m, some n => m < n
    | _, _ => false

/-- Raw JS `>`. -/
def jsGt (a b : JSVal) : Bool :=
  jsLt b a

/-- The sort comparator built by `sortData` (part_001 lines 89-131): a
`reduce` over the sort vector with `flagSoFar` starting at `0`.  A tuple
whose attribute does not rank compares below one whose attribute does; if
both rank, the raw attribute values compare with `<`/`>`; the resulting
outcome is mapped through the key's `sortDirection` (`-sortDirection` for
less-than, `sortDirection` for greater-than) only when no earlier key has
set the flag. -/
def tupleCompare (sortVector : List (String × Int)) (a b : Tuple) : Int :=
  sortVector.foldl
    (fun flagSoFar p =>
      let attrName := p.1
      let sortDirection := p.2
      let ra := rankSpecialCase a attrName
      let rb := rankSpecialCase b attrName
      let outcome : Int :=
        if !ra && !rb then 0
        else if !ra && rb then -1
        else if ra && !rb then 1
        else
          let va := tupleGet a attrName
          let vb := tupleGet b attrName
          if jsLt va vb then -1 else if jsGt va vb then 1 else 0
      if outcome == -1 then (if flagSoFar != 0 then flagSoFar else -sortDirection)
      else if outcome == 1 then (if flagSoFar != 0 then flagSoFar else sortDirection)
      else flagSoFar)
    0

/-- Stable insertion of one tuple into an already-sorted list under a
comparator (negative keeps `x` first; ties keep the earlier element
first). -/
def insertSorted (c : Tuple → Tuple → Int) (x : Tuple) : List Tuple → List Tuple
  | [] => [x]
  | y :: ys => if c x y <= 0 then x :: y :: ys else y :: insertSorted c x ys

/-- Source `sortData`: `data.sort(comparator)`, modelled as a stable
comparator sort (`Array#sort` is stable per the ECMAScript spec, and the
comparator produced by a sort vector is consistent). -/
def sortData (data : List Tuple) (sortVector : List (String × Int)) : List Tuple :=
  data.foldr (insertSorted (tupleCompare sortVector)) []

/-- The sort stage (module export, part_001 lines 39-61): null data or a
missing comparator pass through; otherwise the (deep-copied, here pure)
data is sorted with the default rank function. -/
def sortStage (data : Option (List Tuple)) (comparator : Option (List (String × Int))) :
    Option (List Tuple) :=
  match data, comparator with
  | none, _ => none
  | some d, none => some d
  | some d, some sv => some (sortData d sv)

/-! ### Pagination: the limit stage (part_001 lines 14-21) -/

/-- lodash `toInteger` restricted to the integral forms of this model
(`null` and `NaN` become `0`). -/
def jsToInteger (v : JSVal) : Int :=
  match jsToNumber v with
  | some n => n
  | none => 0

/-- `_.slice(data, 0, end)`: a negative end counts from the back, then the
first `end` elements are taken. -/
def jsSliceEnd (l : List Tuple) (e : Int) : List Tuple :=
  let len : Int := l.length
  let e2 := if e < 0 then max (len + e) 0 else min e len
  l.take e2.toNat

/-- The limit stage (part_001 lines 14-21): `undefined`, null data, and `0`
pass the data through unchanged; any other count `n` truncates to
`slice(data, 0, n)` — in particular `null` truncates to zero tuples. -/
def limitStage (data : Option (List Tuple)) (lim : JSVal) : Option (List Tuple) :=
  match data with
  | none => none
  | some d =>
    if lim == JSVal.vundefined || lim == JSVal.vnum 0 then some d
    else some (jsSliceEnd d (jsToInteger lim))

/-! ### Projection stage (`select`, part_002) -/

mutual

/-- A value of a dictionary projection spec: `true`/`false`, or a nested
dictionary spec (recursive sub-select).  A `null` sub-select value would
make the source throw on object-valued attributes (`fields['*']` on `null`);
`null` sub-selects are outside this model, as are nested array specs. -/
inductive FieldVal where
  | fbool (b : Bool) : FieldVal
  | fdict (entries : FEntries) : FieldVal
  deriving DecidableEq, Repr

/-- The entries of a dictionary projection spec, in insertion order. -/
inductive FEntries where
  | nil : FEntries
  | cons (k : String) (v : FieldVal) (rest : FEntries) : FEntries
  deriving DecidableEq, Repr

end

/-- A projection spec as passed to `select`: the string `'*'`, a non-object
(pass-through), an array of attribute names, or a dictionary. -/
inductive Fields where
  | star : Fields
  | prim : Fields
  | arr (names : List String) : Fields
  | dict (entries : FEntries) : Fields
  deriving DecidableEq, Repr

/-- `fields[k]` on a spec dictionary. -/
def feLookup : FEntries → String → Option FieldVal
  | FEntries.nil, _ => none
  | FEntries.cons k1 v rest, k => if k1 == k then some v else feLookup rest k

/-- `delete fields[k]` on a spec dictionary. -/
def feEraseKey : FEntries → String → FEntries
  | FEntries.nil, _ => FEntries.nil
  | FEntries.cons k1 v rest, k =>
    if k1 == k then feEraseKey rest k else FEntries.cons k1 v (feEraseKey rest k)

/-- The keys whose value is literally `false` (`fieldsToExplicitlyOmit`). -/
def feFalseKeys : FEntries → List String
  | FEntries.nil => []
  | FEntries.cons k (FieldVal.fbool false) rest => k :: feFalseKeys rest
  | FEntries.cons _ _ rest => feFalseKeys rest

/-- `Object.keys(fields)`. -/
def feKeys : FEntries → List String
  | FEntries.nil => []
  | FEntries.cons k _ rest => k :: feKeys rest

/-- `Boolean(fields['*'])`: present and not `false` (an object is truthy). -/
def fvTruthy : Option FieldVal → Bool
  | none => false
  | some (FieldVal.fbool b) => b
  | some (FieldVal.fdict _) => true

/-- The array-to-dictionary `reduce` (part_002 lines 37-44): every name maps
to `true`; duplicate names keep their first position (object key order). -/
def arrayToDictGo : List String → List String → FEntries
  | [], _ => FEntries.nil
  | n :: rest, seen =>
    if seen.contains n then arrayToDictGo rest seen
    else FEntries.cons n (FieldVal.fbool true) (arrayToDictGo rest (n :: seen))

/-- Convert an array spec to its dictionary form. -/
def arrayToDict (names : List String) : FEntries :=
  arrayToDictGo names []

/-- Lookup among an object's fields. -/
def fieldsLookup : JSFields → String → Option JSVal
  | JSFields.nil, _ => none
  | JSFields.cons k1 v rest, k => if k1 == k then some v else fieldsLookup rest k

/-- lodash `pick(tuple, keys)`: result fields in key-path order, absent
keys skipped. -/
def pickFields : List String → JSFields → JSFields
  | [], _ => JSFields.nil
  | k :: ks, fs =>
    match fieldsLookup fs k with
    | some v => JSFields.cons k v (pickFields ks fs)
    | none => pickFields ks fs

/-- lodash `omit(tuple, pred)` keeping original field order. -/
def omitFields (omitKeys : List String) : JSFields → JSFields
  | JSFields.nil => JSFields.nil
  | JSFields.cons k v rest =>
    if omitKeys.contains k then omitFields omitKeys rest
    else JSFields.cons k v (omitFields omitKeys rest)

/-- `pick` on a tuple value (non-objects pick to an empty object). -/
def jsPick (v : JSVal) (keys : List String) : JSVal :=
  match v with
  | JSVal.vobj fs => JSVal.vobj (pickFields keys fs)
  | _ => JSVal.vobj JSFields.nil

/-- `omit` on a tuple value (non-objects omit to an empty object). -/
def jsOmit (v : JSVal) (omitKeys : List String) : JSVal :=
  match v with
  | JSVal.vobj fs => JSVal.vobj (omitFields omitKeys fs)
  | _ => JSVal.vobj JSFields.nil

/-- `tuple[attrName]` on a projected tuple value. -/
def jsGetField (v : JSVal) (k : String) : Option JSVal :=
  match v with
  | JSVal.vobj fs => fieldsLookup fs k
  | _ => none

/-- Replace the value stored at an existing field. -/
def setFieldIn : JSFields → String → JSVal → JSFields
  | JSFields.nil, _, _ => JSFields.nil
  | JSFields.cons k1 v rest, k, nv =>
    if k1 == k then JSFields.cons k1 nv rest else JSFields.cons k1 v (setFieldIn rest k nv)

/-- `tuple[attrName] = newValue` on a projected tuple value. -/
def jsSetField (v : JSVal) (k : String) (nv : JSVal) : JSVal :=
  match v with
  | JSVal.vobj fs => JSVal.vobj (setFieldIn fs k nv)
  | v => v

/-- `select(...)[0]` (`undefined` when empty). -/
def headOrUndef : List JSVal → JSVal
  | [] => JSVal.vundefined
  | v :: _ => v

/-- JS array elements of a list of values. -/
def listToElems : List JSVal → JSElems
  | [] => JSElems.nil
  | v :: rest => JSElems.cons v (listToElems rest)

/-- List view of JS array elements. -/
def elemsToList : JSElems → List JSVal
  | JSElems.nil => []
  | JSElems.cons v rest => v :: elemsToList rest

/-- Number of entries of a spec dictionary. -/
def feCount : FEntries → Nat
  | FEntries.nil => 0
  | FEntries.cons _ _ rest => feCount rest + 1

/-- A flat spec dictionary: every value is `true`/`false` (no nested
sub-spec, so the recursive step of `select` never fires). -/
def feFlat : FEntries → Bool
  | FEntries.nil => true
  | FEntries.cons _ (FieldVal.fbool _) rest => feFlat rest
  | FEntries.cons _ (FieldVal.fdict _) _ => false

mutual

/-- Total node count of a spec value (computable size measure). -/
def fvSize : FieldVal → Nat
  | FieldVal.fbool _ => 1
  | FieldVal.fdict es => feSize es + 1

/-- Total node count of a spec dictionary (computable size measure). -/
def feSize : FEntries → Nat
  | FEntries.nil => 1
  | FEntries.cons _ fv rest => fvSize fv + feSize rest + 1

end

mutual

/-- Total node count of a JS value (computable size measure). -/
def jsSize : JSVal → Nat
  | JSVal.vobj fs => jsFieldsSize fs + 1
  | JSVal.varr es => jsElemsSize es + 1
  | _ => 1

/-- Total node count of an object's fields. -/
def jsFieldsSize : JSFields → Nat
  | JSFields.nil => 1
  | JSFields.cons _ v rest => jsSize v + jsFieldsSize rest + 1

/-- Total node count of an array's elements. -/
def jsElemsSize : JSElems → Nat
  | JSElems.nil => 1
  | JSElems.cons v rest => jsSize v + jsElemsSize rest + 1

end

/-- Total node count of a list of tuples. -/
def jsListSize : List JSVal → Nat
  | [] => 1
  | v :: rest => jsSize v + jsListSize rest + 1

mutual

/-- The body of source `select` (part_002 lines 46-110) on a dictionary
spec, with the caller-shared spec object threaded through explicitly,
because the source mutates it: `delete fields['*']` runs at *every*
recursion level on the caller's own (sub-)spec dictionaries, and those
nested deletes are data-dependent — they fire only when some tuple has an
object/array value at that attribute — and feed back into later tuples'
projections (a nested spec whose `'*'` was deleted by an earlier tuple is
in pick mode for the next one).  Splat mode and the explicitly-`false`
keys are computed once per call from the spec as received; the pick keys
are `Object.keys(fields)` after the delete.  The top-level `'*'` entry is
kept in the bookkeeping list while the entry loop runs (the loop skips it,
as iterating the deleted dictionary would) and is erased in the returned
state.  The `Nat` argument is structural-recursion fuel, consumed once
per call, per tuple, and per spec entry; every call chain of the source
consumes either a spec entry, a spec nesting level, or a tuple, and the
projections only shrink values, so the bound `select` passes dominates
every actual chain and `fuel = 0` is never reached from `select`. -/
def selectCoreS (fuel : Nat) (vals : List JSVal) (es : FEntries) :
    List JSVal × FEntries :=
  match fuel with
  | 0 => (vals, es)
  | Nat.succ f =>
    let hasSplat := fvTruthy (feLookup es ("*"))
    let omitKeys := feFalseKeys es
    let pickKeys := (feKeys es).filter (fun k => k != "*")
    let r := selectEachS f hasSplat omitKeys pickKeys es vals
    (r.1, feEraseKey r.2 ("*"))

/-- `map(tuples, ...)`: pick or omit the top-level attributes of each
tuple, run the sub-select loop (which may mutate nested sub-specs), and
carry the mutated spec into the remaining tuples. -/
def selectEachS (fuel : Nat) (hasSplat : Bool) (omitKeys pickKeys : List String)
    (es : FEntries) (vals : List JSVal) : List JSVal × FEntries :=
  match fuel with
  | 0 => ([], es)
  | Nat.succ f =>
    match vals with
    | [] => ([], es)
    | v :: rest =>
      let v1 := if hasSplat then jsOmit v omitKeys else jsPick v pickKeys
      let p := applySubsS f es v1
      let q := selectEachS f hasSplat omitKeys pickKeys p.2 rest
      (p.1 :: q.1, q.2)

/-- `each(fields, (subselect, attrName) => ...)`: a dictionary-valued entry
recurses into an array-valued attribute elementwise and wraps/unwraps an
object-valued attribute through a singleton list; the recursive call is
`select(tuple[attrName], subselect)` on the caller's own nested spec
object, whose post-call state replaces the entry.  The `'*'` key was
deleted before this loop, so it is skipped. -/
def applySubsS (fuel : Nat) (es : FEntries) (v : JSVal) : JSVal × FEntries :=
  match fuel with
  | 0 => (v, es)
  | Nat.succ f =>
    match es with
    | FEntries.nil => (v, FEntries.nil)
    | FEntries.cons k fv rest =>
      if k == "*" then
        let p := applySubsS f rest v
        (p.1, FEntries.cons k fv p.2)
      else
        match fv with
        | FieldVal.fbool b =>
          let p := applySubsS f rest v
          (p.1, FEntries.cons k (FieldVal.fbool b) p.2)
        | FieldVal.fdict sub =>
          match jsGetField v k with
          | some (JSVal.varr elems) =>
            let r := selectCoreS f (elemsToList elems) sub
            let p := applySubsS f rest (jsSetField v k (JSVal.varr (listToElems r.1)))
            (p.1, FEntries.cons k (FieldVal.fdict r.2) p.2)
          | some (JSVal.vobj fs) =>
            let r := selectCoreS f [JSVal.vobj fs] sub
            let p := applySubsS f rest (jsSetField v k (headOrUndef r.1))
            (p.1, FEntries.cons k (FieldVal.fdict r.2) p.2)
          | _ =>
            let p := applySubsS f rest v
            (p.1, FEntries.cons k (FieldVal.fdict sub) p.2)

end

/-- Source `select` (part_002 lines 20-111) with the caller's spec tracked
explicitly: `'*'` expands to `{'*': true}` (a fresh object), a non-object
spec passes the tuples through, an array spec converts to a fresh
dictionary, and a dictionary spec is evaluated in place — whereupon the
`delete fields['*']` of the source (at the top level and, data-dependently,
inside nested sub-spec dictionaries reached by the recursive step) is
visible to the caller, so the returned spec is the post-call state of the
input dictionary. -/
def select (vals : List JSVal) (fields : Fields) : List JSVal × Fields :=
  match fields with
  | Fields.prim => (vals, Fields.prim)
  | Fields.star =>
    let es := FEntries.cons ("*") (FieldVal.fbool true) FEntries.nil
    ((selectCoreS ((jsListSize vals + 2) * (feSize es + 2)) vals es).1, Fields.star)
  | Fields.arr names =>
    let es := arrayToDict names
    ((selectCoreS ((jsListSize vals + 2) * (feSize es + 2)) vals es).1, Fields.arr names)
  | Fields.dict es =>
    let r := selectCoreS ((jsListSize vals + 2) * (feSize es + 2)) vals es
    (r.1, Fields.dict r.2)

/-! ### Filter stage (the part_000 module export) -/

/-- lodash `filter` over the tuples with the `matchSet` predicate; a thrown
criteria error propagates. -/
def filterTuples (wh : QVal) (schema : Schema) : List Tuple → Except String (List Tuple)
  | [] => Except.ok []
  | t :: rest =>
    match matchSet t wh none schema with
    | Except.error e => Except.error e
    | Except.ok b =>
      match filterTuples wh schema rest with
      | Except.error e => Except.error e
      | Except.ok l => Except.ok (if b then t :: l else l)

/-- The WHERE filter stage (part_000 lines 26-37): null data passes
through; otherwise each tuple is kept iff it matches the criteria. -/
def whereFilter (data : Option (List Tuple)) (wh : QVal) (schema : Schema) :
    Except String (Option (List Tuple)) :=
  match data with
  | none => Except.ok none
  | some d =>
    match filterTuples wh schema d with
    | Except.error e => Except.error e
    | Except.ok l => Except.ok (some l)

/-- `Except.ok`-ness of an evaluation result. -/
def exIsOk : Except String Bool → Bool
  | Except.ok _ => true
  | Except.error _ => false

/-- Whether an evaluation result is a successful match. -/
def exIsTrue : Except String Bool → Bool
  | Except.ok b => b
  | Except.error _ => false

/-! ### Helper lemmas -/

/-- An attribute that is not an own property reads as `undefined`. -/
theorem tupleGet_of_not_hasKey (t : Tuple) (k : String) (h : hasKey t k = false) :
    tupleGet t k = JSVal.vundefined := by
  induction t with
  | nil => rfl
  | cons p rest ih =>
    obtain ⟨k1, v⟩ := p
    simp only [hasKey, Bool.or_eq_false_iff] at h
    simp only [tupleGet, h.1, if_false]
    exact ih h.2

/-- When every disjunct evaluates without throwing, `matchOr` over an array
returns whether any disjunct matched. -/
theorem matchOrVals_ok (t : Tuple) (schema : Schema) :
    ∀ L : QArr, (∀ c ∈ qarrToList L, exIsOk (matchSet t c none schema) = true) →
      matchOrVals t L schema =
        Except.ok ((qarrToList L).any fun c => exIsTrue (matchSet t c none schema))
  | QArr.nil => fun _ => rfl
  | QArr.cons c rest => fun h => by
    have hc : exIsOk (matchSet t c none schema) = true := h c (by simp [qarrToList])
    have hrest : ∀ d ∈ qarrToList rest, exIsOk (matchSet t d none schema) = true := by
      intro d hd
      exact h d (by simp [qarrToList, hd])
    have ih := matchOrVals_ok t schema rest hrest
    cases hm : matchSet t c none schema with
    | error e => rw [hm] at hc; simp [exIsOk] at hc
    | ok b =>
      simp only [matchOrVals, hm, ih, qarrToList, List.any_cons, exIsTrue]

/-- When every conjunct evaluates without throwing, `matchAnd` over an array
returns whether all conjuncts matched. -/
theorem matchAndVals_ok (t : Tuple) (schema : Schema) :
    ∀ L : QArr, (∀ c ∈ qarrToList L, exIsOk (matchSet t c none schema) = true) →
      matchAndVals t L schema =
        Except.ok ((qarrToList L).all fun c => exIsTrue (matchSet t c none schema))
  | QArr.nil => fun _ => rfl
  | QArr.cons c rest => fun h => by
    have hc : exIsOk (matchSet t c none schema) = true := h c (by simp [qarrToList])
    have hrest : ∀ d ∈ qarrToList rest, exIsOk (matchSet t d none schema) = true := by
      intro d hd
      exact h d (by simp [qarrToList, hd])
    have ih := matchAndVals_ok t schema rest hrest
    cases hm : matchSet t c none schema with
    | error e => rw [hm] at hc; simp [exIsOk] at hc
    | ok b =>
      simp only [matchAndVals, hm, ih, qarrToList, List.all_cons, exIsTrue]

/-! ### The claims -/

/-- C1 (counterexample): sorting `[{a:2},{a:null},{a:1}]` by `{a: ascending}`
does *not* yield `[{a:1},{a:2},{a:null}]` as the claim states; the default
rank function makes the null tuple compare below the others and the
direction flip applies to that outcome too, so the null tuple comes first:
the result is `[{a:null},{a:1},{a:2}]`. -/
theorem C1_sort_null_counterexample :
    sortStage (some [[("a", JSVal.vnum 2)], [("a", JSVal.vnull)], [("a", JSVal.vnum 1)]])
        (some [("a", 1)]) =
      some [[("a", JSVal.vnull)], [("a", JSVal.vnum 1)], [("a", JSVal.vnum 2)]] ∧
    sortStage (some [[("a", JSVal.vnum 2)], [("a", JSVal.vnull)], [("a", JSVal.vnum 1)]])
        (some [("a", 1)]) ≠
      some [[("a", JSVal.vnum 1)], [("a", JSVal.vnum 2)], [("a", JSVal.vnull)]] := by
  constructor
  · decide
  · decide

/-- C1 (amended): under the default rank function a tuple whose sort-key
attribute is `null`/absent compares *below* a tuple whose attribute is
present, and the key's declared direction applies to that outcome — so
nulls come first under ascending (`1`) and last under descending (`-1`);
in particular the claim's example sorts to `[{a:null},{a:1},{a:2}]`
ascending and `[{a:2},{a:1},{a:null}]` descending. -/
theorem C1_sort_null_amended :
    (∀ (a b : Tuple) (k : String) (dir : Int),
        rankSpecialCase a k = true → rankSpecialCase b k = false →
        tupleCompare [(k, dir)] a b = dir ∧ tupleCompare [(k, dir)] b a = -dir) ∧
    sortStage (some [[("a", JSVal.vnum 2)], [("a", JSVal.vnull)], [("a", JSVal.vnum 1)]])
        (some [("a", 1)]) =
      some [[("a", JSVal.vnull)], [("a", JSVal.vnum 1)], [("a", JSVal.vnum 2)]] ∧
    sortStage (some [[("a", JSVal.vnum 2)], [("a", JSVal.vnull)], [("a", JSVal.vnum 1)]])
        (some [("a", -1)]) =
      some [[("a", JSVal.vnum 2)], [("a", JSVal.vnum 1)], [("a", JSVal.vnull)]] := by
  refine ⟨?_, by decide, by decide⟩
  intro a b k dir ha hb
  constructor
  · simp [tupleCompare, ha, hb]
  · simp [tupleCompare, ha, hb]

/-- C1 (witness for the amended theorem): the general clause applied at the
claim's own tuples. -/
theorem C1_sort_null_amended_witness :
    rankSpecialCase [("a", JSVal.vnum 2)] ("a") = true ∧
    rankSpecialCase [("a", JSVal.vnull)] ("a") = false ∧
    tupleCompare [("a", 1)] [("a", JSVal.vnum 2)] [("a", JSVal.vnull)] = 1 ∧
    tupleCompare [("a", 1)] [("a", JSVal.vnull)] [("a", JSVal.vnum 2)] = -1 :=
  ⟨by decide, by decide,
   (C1_sort_null_amended.1 [("a", JSVal.vnum 2)] [("a", JSVal.vnull)] "a" 1
      (by decide) (by decide)).1,
   (C1_sort_null_amended.1 [("a", JSVal.vnum 2)] [("a", JSVal.vnull)] "a" 1
      (by decide) (by decide)).2⟩

/-- C2 (code bug): `isNumbery` is documented as "can be successfully parsed
as a finite number", but its test `Math.pow(Number(value), 2) > 0` is false
at `0`.  Both `"0"` and `"00"` parse as the finite number `0`, yet
`isNumbery "0"` is false, so no numeric coercion happens and the equality
`matchLiteral` over `attr="0"`, `criterion="00"` compares the raw strings
and fails — though under the claimed "exactly when both parse as finite
numbers" rule it would succeed (`0 == 0`).  The claim's own example
(`attr=3`, `criterion="3"`) does hold. -/
theorem C2_isNumbery_code_bug :
    jsToNumber (JSVal.vstr "0") = some 0 ∧
    jsToNumber (JSVal.vstr "00") = some 0 ∧
    isNumbery (JSVal.vstr "0") = false ∧
    matchLiteral [("a", JSVal.vstr "0")] ("a") (JSVal.vstr "00") eqFn [] = Except.ok false ∧
    matchLiteral [("a", JSVal.vnum 3)] ("a") (JSVal.vstr "3") eqFn [] = Except.ok true := by
  refine ⟨by decide, by decide, by decide, by decide, by decide⟩

/-- C3 (code bug): the translation replaces `%%%` by `%` *before* escaping
and before the wildcard rewrite, so the surviving `%` is turned into `.*`
like any other — the "escaped percent" never matches literally.  Hence
`likeMatch("abc", "a%%%b%c")` is true (the value contains no `%` at all) and
the pattern behaves exactly like `a%b%c`; the plain wildcard examples of
the claim do hold. -/
theorem C3_like_escape_code_bug :
    sqlLikeMatch (JSVal.vstr "hello world") (JSVal.vstr "hello%") = Except.ok true ∧
    sqlLikeMatch (JSVal.vstr "hello world") (JSVal.vstr "%world") = Except.ok true ∧
    sqlLikeMatch (JSVal.vstr "abc") (JSVal.vstr "a%%%b%c") = Except.ok true ∧
    sqlLikeMatch (JSVal.vstr "abc") (JSVal.vstr "a%b%c") = Except.ok true := by
  refine ⟨by decide, by decide, by decide, by decide⟩

/-- C10: a `null` limit is not exempted by the guard (which passes through
only `undefined`, `0`, and absent data), and `toInteger(null)` is `0`, so
`limit(T, null)` truncates a non-empty sequence to the empty sequence. -/
theorem C10_limit_null (d : List Tuple) (h : d ≠ []) :
    limitStage (some d) JSVal.vnull = some [] ∧
    limitStage (some d) JSVal.vundefined = some d ∧
    limitStage (some d) (JSVal.vnum 0) = some d := by
  refine ⟨?_, rfl, rfl⟩
  simp [limitStage, jsToInteger, jsToNumber, jsSliceEnd]

/-- C10 (witness): the theorem applied to a concrete one-tuple sequence. -/
theorem C10_limit_null_witness :
    limitStage (some [[("a", JSVal.vnum 1)]]) JSVal.vnull = some [] :=
  (C10_limit_null [[("a", JSVal.vnum 1)]] (by decide)).1

/-- C6 (counterexample): the claim quantifies over *every* schema hint, but
with a `date` schema hint and an absent attribute the date coercion runs
`new Date(undefined).toISOString()`, which throws `Invalid time value` —
an error escapes `matchLiteral` instead of a soft `false`. -/
theorem C6_soft_mismatch_counterexample :
    matchLiteral [] ("a") (JSVal.vstr "2020-01-02") eqFn [("a", "date")] =
      Except.error ("Invalid time value") := by decide

/-- C6 (amended): provided the schema hint does not declare the attribute's
type as `date`, `matchLiteral` returns `false` — with no error — whenever
the attribute is absent from the tuple or the criterion value is
`undefined`, for every match function. -/
theorem C6_soft_mismatch_amended (model : Tuple) (key : String) (criterion : JSVal)
    (matchFn : JSVal → JSVal → Except String Bool) (schema : Schema)
    (hdate : schemaType schema key ≠ some ("date"))
    (habs : hasKey model key = false ∨ criterion = JSVal.vundefined) :
    matchLiteral model key criterion matchFn schema = Except.ok false := by
  have hd : (schemaType schema key == some ("date")) = false := by
    simpa [beq_iff_eq] using hdate
  rcases habs with h | h
  · simp [matchLiteral, hd, h]
  · subst h
    simp only [matchLiteral, hd, if_false, Bool.false_eq_true]
    cases hk : hasKey model key <;> simp [isNumbery, jsToNumber]

/-- C6 (witness): the amended theorem at a concrete absent attribute. -/
theorem C6_soft_mismatch_amended_witness :
    matchLiteral [] ("a") JSVal.vnull eqFn [] = Except.ok false :=
  C6_soft_mismatch_amended [] "a" JSVal.vnull eqFn [] (by decide) (Or.inl (by decide))

/-- Every spec value has positive size. -/
theorem fvSize_pos (fv : FieldVal) : 1 <= fvSize fv := by
  cases fv <;> simp [fvSize]

/-- The entry count of a spec dictionary is below its size. -/
theorem feCount_lt_feSize : (es : FEntries) → feCount es < feSize es
  | FEntries.nil => by simp [feCount, feSize]
  | FEntries.cons _ fv rest => by
      have ih := feCount_lt_feSize rest
      have hfv := fvSize_pos fv
      simp only [feCount, feSize]
      omega

/-- The length of a tuple list is below its node count. -/
theorem length_lt_jsListSize : (vals : List JSVal) → vals.length < jsListSize vals
  | [] => by simp [jsListSize]
  | v :: rest => by
      have ih := length_lt_jsListSize rest
      simp only [jsListSize, List.length_cons]
      omega

/-- On a flat spec the sub-select loop is the identity: every entry is a
boolean, so no recursive `select` call fires and the spec comes back
unchanged, provided the fuel covers the entries. -/
theorem applySubsS_flat : (es : FEntries) → ∀ (f : Nat) (v : JSVal),
    feFlat es = true → feCount es ≤ f → applySubsS f es v = (v, es)
  | FEntries.nil => fun f v _ _ => by cases f <;> rfl
  | FEntries.cons k fv rest => fun f v hflat hf => by
      cases fv with
      | fdict sub => simp [feFlat] at hflat
      | fbool b =>
        have hflat' : feFlat rest = true := by
          simpa [feFlat] using hflat
        cases f with
        | zero => simp only [feCount] at hf; omega
        | succ f' =>
          have ih := applySubsS_flat rest f' v hflat'
            (by simp only [feCount] at hf; omega)
          have e : applySubsS (Nat.succ f') (FEntries.cons k (FieldVal.fbool b) rest) v =
              (if (k == ("*")) = true then
                ((applySubsS f' rest v).1,
                  FEntries.cons k (FieldVal.fbool b) (applySubsS f' rest v).2)
              else
                ((applySubsS f' rest v).1,
                  FEntries.cons k (FieldVal.fbool b) (applySubsS f' rest v).2)) := rfl
          rw [e, ih]
          split <;> rfl

/-- On a flat spec the per-tuple loop leaves the spec state unchanged,
provided the fuel covers the tuples and the entries. -/
theorem selectEachS_flat (vals : List JSVal) :
    ∀ (f : Nat) (hs : Bool) (ok pk : List String) (es : FEntries),
      feFlat es = true → vals.length + feCount es ≤ f →
      (selectEachS f hs ok pk es vals).2 = es := by
  induction vals with
  | nil => intro f hs ok pk es hflat hf; cases f <;> rfl
  | cons v rest ih =>
    intro f hs ok pk es hflat hf
    cases f with
    | zero => simp only [List.length_cons] at hf; omega
    | succ f' =>
      have e : (selectEachS (Nat.succ f') hs ok pk es (v :: rest)).2 =
          (selectEachS f' hs ok pk
            (applySubsS f' es (if hs then jsOmit v ok else jsPick v pk)).2 rest).2 := rfl
      rw [e, applySubsS_flat es f' _ hflat
        (by simp only [List.length_cons] at hf; omega)]
      exact ih f' hs ok pk es hflat
        (by simp only [List.length_cons] at hf; omega)

/-- On a flat spec a `select` call returns its spec with exactly the
top-level `'*'` key deleted, provided the fuel covers the call. -/
theorem selectCoreS_flat (f : Nat) (vals : List JSVal) (es : FEntries)
    (hflat : feFlat es = true) (hf : vals.length + feCount es + 1 ≤ f) :
    (selectCoreS f vals es).2 = feEraseKey es ("*") := by
  cases f with
  | zero => omega
  | succ f' =>
    have e : (selectCoreS (Nat.succ f') vals es).2 =
        feEraseKey (selectEachS f' (fvTruthy (feLookup es ("*"))) (feFalseKeys es)
          ((feKeys es).filter (fun k => k != ("*"))) es vals).2 ("*") := rfl
    rw [e, selectEachS_flat vals f' _ _ _ es hflat (by omega)]

/-- C8 (counterexample): the projection stage does *not* leave the caller's
projection spec unchanged: `delete fields['*']` removes the `'*'` key from
a caller-provided dictionary spec. -/
theorem C8_spec_mutation_counterexample :
    (select [JSVal.vobj (JSFields.cons ("a") (JSVal.vnum 1) JSFields.nil)]
        (Fields.dict (FEntries.cons ("*") (FieldVal.fbool true) FEntries.nil))).2 ≠
      Fields.dict (FEntries.cons ("*") (FieldVal.fbool true) FEntries.nil) := by decide

/-- C8 (amended): every stage leaves the tuple sequence unchanged, and
every modifier argument is left unchanged *except* the projection spec:
`delete fields['*']` removes the `'*'` key from a caller-provided
dictionary spec at the top level and — data-dependently on the tuples —
from nested sub-spec dictionaries reached by the recursive step.  Clause
1: for a flat dictionary spec (no nested sub-specs) the post-call spec is
exactly the input with the top-level `'*'` removed.  Clause 2: for a
nested spec, `select([{a: {x: 1}}], {a: {'*': true}})` leaves the
caller's spec as `{a: {}}`, which differs from deleting only the
top-level `'*'`.  Clauses 3-5: `'*'`-string, array, and non-object specs
are re-built or passed through, so the caller's value is unaffected in
those forms, and a non-object spec returns the tuples as-is. -/
theorem C8_spec_mutation_amended :
    (∀ (vals : List JSVal) (es : FEntries), feFlat es = true →
        (select vals (Fields.dict es)).2 = Fields.dict (feEraseKey es ("*"))) ∧
    ((select [JSVal.vobj (JSFields.cons ("a")
          (JSVal.vobj (JSFields.cons ("x") (JSVal.vnum 1) JSFields.nil)) JSFields.nil)]
        (Fields.dict (FEntries.cons ("a")
          (FieldVal.fdict (FEntries.cons ("*") (FieldVal.fbool true) FEntries.nil))
          FEntries.nil))).2 =
      Fields.dict (FEntries.cons ("a") (FieldVal.fdict FEntries.nil) FEntries.nil) ∧
      Fields.dict (FEntries.cons ("a") (FieldVal.fdict FEntries.nil) FEntries.nil) ≠
        Fields.dict (feEraseKey (FEntries.cons ("a")
          (FieldVal.fdict (FEntries.cons ("*") (FieldVal.fbool true) FEntries.nil))
          FEntries.nil) ("*"))) ∧
    (∀ vals : List JSVal, (select vals Fields.star).2 = Fields.star) ∧
    (∀ (vals : List JSVal) (names : List String),
        (select vals (Fields.arr names)).2 = Fields.arr names) ∧
    (∀ vals : List JSVal,
        (select vals Fields.prim).2 = Fields.prim ∧ (select vals Fields.prim).1 = vals) := by
  refine ⟨?_, ⟨by decide, by decide⟩, fun _ => rfl, fun _ _ => rfl, fun _ => ⟨rfl, rfl⟩⟩
  intro vals es hflat
  have h1 := length_lt_jsListSize vals
  have h2 := feCount_lt_feSize es
  have h3 : (jsListSize vals + 2) * (feSize es + 2) =
      jsListSize vals * feSize es + 2 * jsListSize vals + 2 * feSize es + 4 := by ring
  have e : (select vals (Fields.dict es)).2 =
      Fields.dict (selectCoreS ((jsListSize vals + 2) * (feSize es + 2)) vals es).2 := rfl
  rw [e, selectCoreS_flat _ vals es hflat (by omega)]

/-- C8 (amended, witness): the flat-spec clause at a concrete spec with a
`'*'` key and an explicitly-`false` key. -/
theorem C8_spec_mutation_amended_witness :
    feFlat (FEntries.cons ("*") (FieldVal.fbool true)
        (FEntries.cons ("b") (FieldVal.fbool false) FEntries.nil)) = true ∧
    (select [JSVal.vobj (JSFields.cons ("b") (JSVal.vnum 2)
          (JSFields.cons ("c") (JSVal.vnum 3) JSFields.nil))]
        (Fields.dict (FEntries.cons ("*") (FieldVal.fbool true)
          (FEntries.cons ("b") (FieldVal.fbool false) FEntries.nil)))).2 =
      Fields.dict (feEraseKey (FEntries.cons ("*") (FieldVal.fbool true)
        (FEntries.cons ("b") (FieldVal.fbool false) FEntries.nil)) ("*")) :=
  ⟨by decide, C8_spec_mutation_amended.1
    [JSVal.vobj (JSFields.cons ("b") (JSVal.vnum 2)
      (JSFields.cons ("c") (JSVal.vnum 3) JSFields.nil))]
    (FEntries.cons ("*") (FieldVal.fbool true)
      (FEntries.cons ("b") (FieldVal.fbool false) FEntries.nil)) (by decide)⟩

/-- C4: for every tuple and list of criteria whose members all evaluate
without throwing, `matches(t, {or: L})` is true iff some criterion in `L`
matches (an empty list yields `false`, since `[].any` is `false`), and
`matches(t, {and: L})` is true iff every criterion matches (an empty list
yields `true`). -/
theorem C4_or_and_semantics (t : Tuple) (schema : Schema) (L : QArr)
    (h : ∀ c ∈ qarrToList L, exIsOk (matchSet t c none schema) = true) :
    matchSet t (QVal.dict (QDict.cons ("or") (QVal.arr L) QDict.nil)) none schema =
      Except.ok ((qarrToList L).any fun c => exIsTrue (matchSet t c none schema)) ∧
    matchSet t (QVal.dict (QDict.cons ("and") (QVal.arr L) QDict.nil)) none schema =
      Except.ok ((qarrToList L).all fun c => exIsTrue (matchSet t c none schema)) := by
  constructor
  · have e1 : matchSet t (QVal.dict (QDict.cons ("or") (QVal.arr L) QDict.nil)) none schema =
        (match matchOrVals t L schema with
         | Except.error e => Except.error e
         | Except.ok b => if b then Except.ok true else Except.ok false) := rfl
    rw [e1, matchOrVals_ok t schema L h]
    cases hb : (qarrToList L).any (fun c => exIsTrue (matchSet t c none schema)) <;> simp
  · have e1 : matchSet t (QVal.dict (QDict.cons ("and") (QVal.arr L) QDict.nil)) none schema =
        (match matchAndVals t L schema with
         | Except.error e => Except.error e
         | Except.ok b => if b then Except.ok true else Except.ok false) := rfl
    rw [e1, matchAndVals_ok t schema L h]
    cases hb : (qarrToList L).all (fun c => exIsTrue (matchSet t c none schema)) <;> simp

/-- C4 (witness): a two-element list with one matching disjunct (`null`
matches everything) and one failing conjunct (`{a: 1}` against the empty
tuple): `or` gives true, `and` gives false; the empty list gives `false`
for `or` and `true` for `and`. -/
theorem C4_or_and_semantics_witness :
    matchSet []
        (QVal.dict (QDict.cons ("or")
          (QVal.arr (QArr.cons (QVal.prim JSVal.vnull)
            (QArr.cons (QVal.dict (QDict.cons ("a") (QVal.prim (JSVal.vnum 1)) QDict.nil))
              QArr.nil))) QDict.nil)) none [] = Except.ok true ∧
    matchSet []
        (QVal.dict (QDict.cons ("and")
          (QVal.arr (QArr.cons (QVal.prim JSVal.vnull)
            (QArr.cons (QVal.dict (QDict.cons ("a") (QVal.prim (JSVal.vnum 1)) QDict.nil))
              QArr.nil))) QDict.nil)) none [] = Except.ok false ∧
    matchSet [] (QVal.dict (QDict.cons ("or") (QVal.arr QArr.nil) QDict.nil)) none [] =
      Except.ok false ∧
    matchSet [] (QVal.dict (QDict.cons ("and") (QVal.arr QArr.nil) QDict.nil)) none [] =
      Except.ok true := by
  have h2 := C4_or_and_semantics [] []
    (QArr.cons (QVal.prim JSVal.vnull)
      (QArr.cons (QVal.dict (QDict.cons ("a") (QVal.prim (JSVal.vnum 1)) QDict.nil)) QArr.nil))
    (by decide)
  have h0 := C4_or_and_semantics [] [] QArr.nil (by decide)
  refine ⟨?_, ?_, ?_, ?_⟩
  · rw [h2.1]; decide
  · rw [h2.2]; decide
  · rw [h0.1]; decide
  · rw [h0.2]; decide

/-- C5: in the comparator's normalization, once a lone date operand has been
converted to its ISO string and non-numbers stringified, two strings that
both match the ISO-8601 pattern are re-parsed and compared by
epoch-millisecond value; consequently
`compare('=', "2020-01-01T00:00:00.000Z", new Date("2020-01-01"))` is true. -/
theorem C5_iso_date_recheck :
    (∀ (s : String) (t x y : Int),
        parseCanonicalISO s = some x → parseCanonicalISO (toISOString t) = some y →
        normalizeComparison (JSVal.vstr s) (JSVal.vdate t) =
          (NormVal.nnum x, NormVal.nnum y)) ∧
    compareOp CmpOp.eq (JSVal.vstr "2020-01-01T00:00:00.000Z")
      (JSVal.vdate ((jsDateParse "2020-01-01").getD 0)) = true := by
  constructor
  · intro s t x y hx hy
    have e1 : normalizeComparison (JSVal.vstr s) (JSVal.vdate t) =
        normIsoRecheck (NormVal.nstr s, NormVal.nstr (toISOString t)) := rfl
    have e2 : normIsoRecheck (NormVal.nstr s, NormVal.nstr (toISOString t)) =
        (match parseCanonicalISO s, parseCanonicalISO (toISOString t) with
         | some a, some b => (NormVal.nnum a, NormVal.nnum b)
         | _, _ => (NormVal.nstr s, NormVal.nstr (toISOString t))) := rfl
    rw [e1, e2, hx, hy]
  · decide

/-- C5 (witness): the general clause at the claim's ISO string against the
epoch date, whose ISO rendering is `1970-01-01T00:00:00.000Z`. -/
theorem C5_iso_date_recheck_witness :
    parseCanonicalISO ("2020-01-01T00:00:00.000Z") = some 1577836800000 ∧
    parseCanonicalISO (toISOString 0) = some 0 ∧
    normalizeComparison (JSVal.vstr "2020-01-01T00:00:00.000Z") (JSVal.vdate 0) =
      (NormVal.nnum 1577836800000, NormVal.nnum 0) :=
  ⟨by decide, by decide,
   C5_iso_date_recheck.1 "2020-01-01T00:00:00.000Z" 0 1577836800000 0 (by decide) (by decide)⟩

/-- C7: in attribute-scoped mode — which the evaluator enters only under a
*truthy* parent key, since JS `if (parentKey)` treats the empty string as
falsy — any key outside the recognized modifier set throws `Invalid query
syntax!` for every criterion value; an empty parent key behaves exactly
like an absent one (top-level dispatch, no such error); and a dictionary
criterion owning *no* recognized sub-attribute key is never evaluated in
attribute-scoped mode — it falls through to the literal equality filter
(which cannot raise that error). -/
theorem C7_invalid_modifier :
    (∀ (model : Tuple) (key : String) (criterion : QVal) (pk : String) (schema : Schema),
        pk ≠ "" →
        key ∉ scopedModifierKeys →
        matchItem model key criterion (some pk) schema =
          Except.error ("Invalid query syntax!")) ∧
    (∀ (model : Tuple) (key : String) (criterion : QVal) (schema : Schema),
        matchItem model key criterion (some "") schema =
          matchItem model key criterion none schema) ∧
    (∀ (model : Tuple) (key : String) (es : QDict) (schema : Schema),
        validSubAttrCriteria (QVal.dict es) = false →
        strToLower key ∉ (["or", "not", "and", "like"] : List String) →
        matchItem model key (QVal.dict es) none schema =
          matchLiteral model key (qvalToJSVal (QVal.dict es)) eqFn schema) := by
  refine ⟨?_, fun model key criterion schema => rfl, ?_⟩
  · intro model key criterion pk schema hpk h
    have hb : (pk == "") = false := beq_eq_false_iff_ne.mpr hpk
    simp only [scopedModifierKeys, List.mem_cons, List.not_mem_nil, or_false, not_or] at h
    obtain ⟨h1, h2, h3, h4, h5, h6, h7, h8, h9, h10, h11, h12, h13, h14, h15, h16, h17⟩ := h
    have e : matchItem model key criterion (some pk) schema =
        (if pk == "" then matchItemTop model key criterion schema
         else matchItemScoped model pk key criterion schema) := rfl
    rw [e]
    simp only [hb, Bool.false_eq_true, if_false]
    simp only [matchItemScoped, beq_eq_false_iff_ne.mpr h1, beq_eq_false_iff_ne.mpr h2,
      beq_eq_false_iff_ne.mpr h3, beq_eq_false_iff_ne.mpr h4, beq_eq_false_iff_ne.mpr h5,
      beq_eq_false_iff_ne.mpr h6, beq_eq_false_iff_ne.mpr h7, beq_eq_false_iff_ne.mpr h8,
      beq_eq_false_iff_ne.mpr h9, beq_eq_false_iff_ne.mpr h10, beq_eq_false_iff_ne.mpr h11,
      beq_eq_false_iff_ne.mpr h12, beq_eq_false_iff_ne.mpr h13, beq_eq_false_iff_ne.mpr h14,
      beq_eq_false_iff_ne.mpr h15, beq_eq_false_iff_ne.mpr h16, beq_eq_false_iff_ne.mpr h17,
      Bool.or_self, Bool.or_false, Bool.false_or, Bool.false_eq_true, if_false]
  · intro model key es schema hv hk
    simp only [List.mem_cons, List.not_mem_nil, or_false, not_or] at hk
    obtain ⟨k1, k2, k3, k4⟩ := hk
    have e : matchItem model key (QVal.dict es) none schema =
        (if strToLower key == "or" then matchOrPairs model es schema
         else if strToLower key == "not" then
           (match matchEntries model es none schema with
            | Except.error err => Except.error err
            | Except.ok b => Except.ok (!b))
         else if strToLower key == "and" then matchAndPairs model es schema
         else if strToLower key == "like" then matchLikePairs model (qLikePairs (QVal.dict es))
         else if validSubAttrCriteria (QVal.dict es) then matchEntries model es (some key) schema
         else matchLiteral model key (qvalToJSVal (QVal.dict es)) eqFn schema) := rfl
    rw [e]
    simp only [beq_eq_false_iff_ne.mpr k1, beq_eq_false_iff_ne.mpr k2,
      beq_eq_false_iff_ne.mpr k3, beq_eq_false_iff_ne.mpr k4, hv,
      Bool.false_eq_true, if_false]

/-- C7 (witness): the unknown key `bogus` under the truthy parent key `a`
throws, and a dictionary with no recognized modifier key is a literal
filter. -/
theorem C7_invalid_modifier_witness :
    matchItem [] ("bogus") (QVal.prim (JSVal.vnum 1)) (some "a") [] =
      Except.error ("Invalid query syntax!") ∧
    matchItem [("x", JSVal.vnum 1)] ("a")
        (QVal.dict (QDict.cons ("x") (QVal.prim (JSVal.vnum 1)) QDict.nil)) none [] =
      matchLiteral [("x", JSVal.vnum 1)] ("a")
        (qvalToJSVal (QVal.dict (QDict.cons ("x") (QVal.prim (JSVal.vnum 1)) QDict.nil)))
        eqFn [] :=
  ⟨C7_invalid_modifier.1 [] "bogus" (QVal.prim (JSVal.vnum 1)) "a" [] (by decide) (by decide),
   C7_invalid_modifier.2.2 [("x", JSVal.vnum 1)] "a"
     (QDict.cons ("x") (QVal.prim (JSVal.vnum 1)) QDict.nil) [] (by decide) (by decide)⟩

/-- C9: the IN filter performs no attribute-presence check: on a tuple
without the attribute it compares `undefined` (which normalizes to the
empty string) against each list element under `compare['=']`; e.g. a list
containing `null` or `""` matches a tuple lacking the attribute. -/
theorem C9_in_filter_no_presence_check :
    (∀ (model : Tuple) (key : String) (L : QArr) (schema : Schema),
        hasKey model key = false →
        strToLower key ∉ (["or", "not", "and", "like"] : List String) →
        matchItem model key (QVal.arr L) none schema =
          Except.ok (qarrAnyEq JSVal.vundefined L)) ∧
    normalizeComparison JSVal.vundefined JSVal.vnull = (NormVal.nstr "", NormVal.nstr "") ∧
    compareOp CmpOp.eq JSVal.vundefined JSVal.vnull = true ∧
    compareOp CmpOp.eq JSVal.vundefined (JSVal.vstr "") = true := by
  refine ⟨?_, by decide, by decide, by decide⟩
  intro model key L schema hk hcomb
  simp only [List.mem_cons, List.not_mem_nil, or_false, not_or] at hcomb
  obtain ⟨k1, k2, k3, k4⟩ := hcomb
  have e : matchItem model key (QVal.arr L) none schema =
      (if strToLower key == "or" then matchOrVals model L schema
       else if strToLower key == "not" then
         (match L with
          | QArr.nil => Except.ok false
          | QArr.cons _ _ => Except.error typeErrMsg)
       else if strToLower key == "and" then matchAndVals model L schema
       else if strToLower key == "like" then matchLikePairs model (qLikePairs (QVal.arr L))
       else Except.ok (qarrAnyEq (tupleGet model key) L)) := rfl
  rw [e]
  simp only [beq_eq_false_iff_ne.mpr k1, beq_eq_false_iff_ne.mpr k2,
    beq_eq_false_iff_ne.mpr k3, beq_eq_false_iff_ne.mpr k4,
    Bool.false_eq_true, if_false, tupleGet_of_not_hasKey model key hk]

/-- C9 (witness): a tuple without `x` matches `{x: [null]}`. -/
theorem C9_in_filter_no_presence_check_witness :
    matchItem [] ("x") (QVal.arr (QArr.cons (QVal.prim JSVal.vnull) QArr.nil)) none [] =
      Except.ok true := by
  have h := C9_in_filter_no_presence_check.1 [] "x"
    (QArr.cons (QVal.prim JSVal.vnull) QArr.nil) [] (by decide) (by decide)
  rw [h]; decide

end WC
